import Mathlib

/-!
Shallow embedding of the ebo retry library (flaticols/ebo).

Durations (`time.Duration`) are modelled as integers (nanoseconds, `ℤ`);
`float64` arithmetic is modelled exactly over `ℚ`, with the explicit
truncating conversion `time.Duration(float64value)` modelled by `goTrunc`
(truncation toward zero, as in Go).  Errors are modelled by the inductive
`GoErr`, whose `Unwrap` cause chain is traversed by `asPermanent`,
mirroring `errors.As(err, &permErr)` for the `*permanentError` target.
The blocking retry loop (`Retry` in retry.go) is modelled by the fueled
function `retryAux`: the operation is an indexed family of results
(`fn k` = outcome of the k-th invocation, `none` meaning success),
`elapsedF k` gives the value `time.Since(startTime)` observed at the
stop check after invocation `k` fails, and `randF k` the `rand.Float64()`
draw used for the jitter computed after that failure.  The run returns
the terminal result together with the list of sleeps performed, so the
number of invocations of the operation is `sleeps.length + 1`.
-/

namespace Ebo

/-- Go error values relevant to the library: base errors, the
`permanentError` wrapper (whose `Unwrap` returns its cause), and a
generic wrapping error (e.g. `fmt.Errorf("...: %w", err)`). -/
inductive GoErr where
  | base (msg : String)
  | permanentErr (cause : GoErr)
  | wrapErr (msg : String) (cause : GoErr)
deriving DecidableEq, Repr

/-- `errors.As(err, &permErr)` followed by reading `permErr.err`:
walk the cause chain and return the cause held by the first
`*permanentError` found, if any. -/
def asPermanent : GoErr → Option GoErr
  | .base _ => none
  | .permanentErr c => some c
  | .wrapErr _ c => asPermanent c

/-- The `RetryConfig` struct from retry.go.  Durations in nanoseconds. -/
structure RetryConfig where
  initialInterval : ℤ
  maxInterval : ℤ
  maxRetries : ℤ
  multiplier : ℚ
  maxElapsedTime : ℤ
  randomizeFactor : ℚ
deriving DecidableEq, Repr

/-- The default configuration built at the top of `Retry`:
500ms, 30s, 10 retries, multiplier 2.0, 5min elapsed cap, jitter 0.5. -/
def defaultConfig : RetryConfig :=
  { initialInterval := 500000000
    maxInterval := 30000000000
    maxRetries := 10
    multiplier := 2
    maxElapsedTime := 300000000000
    randomizeFactor := 1/2 }

/-- Go's conversion `time.Duration(x)` for a `float64` x: truncation
toward zero. -/
def goTrunc (q : ℚ) : ℤ := if 0 ≤ q then ⌊q⌋ else ⌈q⌉

/-- The next-interval computation performed after a failed attempt
(retry.go, body of the loop):
`nextInterval := min(time.Duration(float64(currentInterval)*config.Multiplier), config.MaxInterval)`
followed, when `RandomizeFactor > 0`, by the jitter draw
`time.Duration(minInterval + rand.Float64()*(maxInterval-minInterval))`
with `delta = RandomizeFactor * float64(nextInterval)`. -/
def nextIntervalCore (cur : ℤ) (cfg : RetryConfig) (r : ℚ) : ℤ :=
  let g : ℤ := min (goTrunc ((cur : ℚ) * cfg.multiplier)) cfg.maxInterval
  if 0 < cfg.randomizeFactor then
    let delta : ℚ := cfg.randomizeFactor * (g : ℚ)
    let lo : ℚ := (g : ℚ) - delta
    let hi : ℚ := (g : ℚ) + delta
    goTrunc (lo + r * (hi - lo))
  else g

/-- Terminal outcome of a retry run: `nil` or an error. -/
inductive RetryResult where
  | ok
  | fail (e : GoErr)
deriving DecidableEq, Repr

/-- The loop of `Retry` (retry.go), fueled.  State: `k` = number of
invocations already performed, `cur` = `currentInterval`.  Each
iteration invokes `fn k`; on success return, on a cause-chain
permanent error return the unwrapped cause, otherwise `attempts = k+1`
and the two stop checks run; if neither fires, the loop computes the
next interval, sleeps `cur`, and continues.  The returned list records
the sleeps performed, in order. -/
def retryAux (cfg : RetryConfig) (fn : ℕ → Option GoErr) (elapsedF : ℕ → ℤ)
    (randF : ℕ → ℚ) : ℕ → ℕ → ℤ → Option (RetryResult × List ℤ)
  | 0, _, _ => none
  | fuel + 1, k, cur =>
    match fn k with
    | none => some (.ok, [])
    | some e =>
      match asPermanent e with
      | some c => some (.fail c, [])
      | none =>
        if 0 < cfg.maxRetries ∧ cfg.maxRetries ≤ (k : ℤ) + 1 then some (.fail e, [])
        else if 0 < cfg.maxElapsedTime ∧ cfg.maxElapsedTime ≤ elapsedF k then
          some (.fail e, [])
        else
          match retryAux cfg fn elapsedF randF fuel (k + 1)
              (nextIntervalCore cur cfg (randF k)) with
          | none => none
          | some (r, sleeps) => some (r, cur :: sleeps)

/-- A whole run of `Retry`: start at invocation 0 with
`currentInterval = config.InitialInterval`. -/
def RetryRun (cfg : RetryConfig) (fn : ℕ → Option GoErr) (elapsedF : ℕ → ℤ)
    (randF : ℕ → ℚ) (fuel : ℕ) : Option (RetryResult × List ℤ) :=
  retryAux cfg fn elapsedF randF fuel 0 cfg.initialInterval

/-- Number of invocations of the operation in a completed run: one per
sleep, plus the final (non-sleeping) iteration. -/
def invocations (out : RetryResult × List ℤ) : ℕ := out.2.length + 1

/-- C1: inside blocking `Retry`, an invocation returning an error whose
cause chain contains the `permanentError` marker makes `Retry` return
the unwrapped underlying cause at once, with no sleep and hence no
further invocation; in particular a permanent error on attempt 1 means
exactly one invocation and the returned error is the unwrapped cause. -/
theorem retry_permanent_short_circuit (cfg : RetryConfig) (fn : ℕ → Option GoErr)
    (elapsedF : ℕ → ℤ) (randF : ℕ → ℚ) (e c : GoErr) :
    (∀ fuel k cur, fn k = some e → asPermanent e = some c →
      retryAux cfg fn elapsedF randF (fuel + 1) k cur = some (.fail c, [])) ∧
    (∀ fuel, fn 0 = some e → asPermanent e = some c →
      RetryRun cfg fn elapsedF randF (fuel + 1) = some (.fail c, []) ∧
      invocations (.fail c, []) = 1) := by
  constructor
  · intro fuel k cur hfn hperm
    simp [retryAux, hfn, hperm]
  · intro fuel hfn hperm
    refine ⟨?_, rfl⟩
    simp [RetryRun, retryAux, hfn, hperm]

/-- Witness for C1: a concrete run where attempt 1 returns a wrapped
permanent error; the run makes exactly one invocation and returns the
unwrapped cause. -/
theorem retry_permanent_short_circuit_witness :
    RetryRun defaultConfig
        (fun _ => some (.wrapErr "ctx" (.permanentErr (.base "boom"))))
        (fun _ => 0) (fun _ => 0) 1 = some (.fail (.base "boom"), []) ∧
    invocations (.fail (.base "boom"), []) = 1 :=
  (retry_permanent_short_circuit defaultConfig
      (fun _ => some (.wrapErr "ctx" (.permanentErr (.base "boom"))))
      (fun _ => 0) (fun _ => 0)
      (.wrapErr "ctx" (.permanentErr (.base "boom"))) (.base "boom")).2
    0 rfl rfl

/-- Helper: once the invocation index is below `maxRetries`, any
completed run from that point performs at most `maxRetries - k`
further invocations (one per recorded sleep plus the final one). -/
theorem retryAux_length_bound (cfg : RetryConfig) (fn : ℕ → Option GoErr)
    (elapsedF : ℕ → ℤ) (randF : ℕ → ℚ) (hpos : 0 < cfg.maxRetries) :
    ∀ (fuel k : ℕ) (cur : ℤ) (r : RetryResult) (s : List ℤ),
      (k : ℤ) < cfg.maxRetries →
      retryAux cfg fn elapsedF randF fuel k cur = some (r, s) →
      (k : ℤ) + s.length + 1 ≤ cfg.maxRetries := by
  intro fuel
  induction fuel with
  | zero => intro k cur r s _ h; simp [retryAux] at h
  | succ n ih =>
    intro k cur r s hk h
    rw [retryAux] at h
    cases hfn : fn k with
    | none =>
      simp only [hfn] at h
      obtain ⟨-, hs⟩ := Prod.mk.injEq .. ▸ Option.some.injEq .. ▸ h
      simp [← hs]
      omega
    | some e =>
      simp only [hfn] at h
      cases hperm : asPermanent e with
      | some c =>
        simp only [hperm] at h
        obtain ⟨-, hs⟩ := Prod.mk.injEq .. ▸ Option.some.injEq .. ▸ h
        simp [← hs]
        omega
      | none =>
        simp only [hperm] at h
        split at h
        · obtain ⟨-, hs⟩ := Prod.mk.injEq .. ▸ Option.some.injEq .. ▸ h
          simp [← hs]
          omega
        · split at h
          · obtain ⟨-, hs⟩ := Prod.mk.injEq .. ▸ Option.some.injEq .. ▸ h
            simp [← hs]
            omega
          · cases hrec : retryAux cfg fn elapsedF randF n (k + 1)
                (nextIntervalCore cur cfg (randF k)) with
            | none => rw [hrec] at h; simp at h
            | some p =>
              obtain ⟨p1, p2⟩ := p
              rw [hrec] at h
              simp only [Option.some.injEq, Prod.mk.injEq] at h
              obtain ⟨-, hs⟩ := h
              have hk1 : ((k + 1 : ℕ) : ℤ) < cfg.maxRetries := by push_cast; omega
              have hb := ih (k + 1) (nextIntervalCore cur cfg (randF k)) p1 p2 hk1 hrec
              have hlen : s.length = p2.length + 1 := by rw [← hs]; simp
              push_cast at hb ⊢
              omega

/-- C2: with `maxRetries = n > 0`, a completed blocking `Retry` run
invokes the operation at most `n` times (never `n+1`); moreover the
loop returns the last error with no further sleep as soon as the
attempt counter reaches `n` (comparison `≥`), and, when
`maxElapsedTime > 0`, as soon as the observed elapsed time reaches
`maxElapsedTime` (`≥`). -/
theorem retry_max_attempts (cfg : RetryConfig) (fn : ℕ → Option GoErr)
    (elapsedF : ℕ → ℤ) (randF : ℕ → ℚ) (n : ℤ)
    (hn : cfg.maxRetries = n) (hpos : 0 < n) :
    (∀ fuel r s, RetryRun cfg fn elapsedF randF fuel = some (r, s) →
      (invocations (r, s) : ℤ) ≤ n) ∧
    (∀ fuel k cur e, fn k = some e → asPermanent e = none → n ≤ (k : ℤ) + 1 →
      retryAux cfg fn elapsedF randF (fuel + 1) k cur = some (.fail e, [])) ∧
    (∀ fuel k cur e, fn k = some e → asPermanent e = none →
      0 < cfg.maxElapsedTime → cfg.maxElapsedTime ≤ elapsedF k →
      retryAux cfg fn elapsedF randF (fuel + 1) k cur = some (.fail e, [])) := by
  subst hn
  refine ⟨?_, ?_, ?_⟩
  · intro fuel r s h
    have := retryAux_length_bound cfg fn elapsedF randF hpos fuel 0
      cfg.initialInterval r s (by exact_mod_cast hpos) h
    simp [invocations]
    omega
  · intro fuel k cur e hfn hperm hk
    simp only [retryAux, hfn, hperm]
    rw [if_pos ⟨hpos, hk⟩]
  · intro fuel k cur e hfn hperm help hge
    simp only [retryAux, hfn, hperm]
    by_cases hstop : 0 < cfg.maxRetries ∧ cfg.maxRetries ≤ (k : ℤ) + 1
    · rw [if_pos hstop]
    · rw [if_neg hstop, if_pos ⟨help, hge⟩]

/-- Witness for C2: with `maxRetries = 1` and an always-failing
operation, a concrete completed run performs exactly one invocation,
within the bound. -/
theorem retry_max_attempts_witness :
    (invocations (.fail (.base "boom"), []) : ℤ) ≤ 1 :=
  (retry_max_attempts ⟨500000000, 30000000000, 1, 2, 300000000000, 1/2⟩
    (fun _ => some (.base "boom")) (fun _ => 0) (fun _ => 0) 1 rfl
    (by decide)).1 1 (.fail (.base "boom")) [] rfl

/-- The policy of the C3 scenario: initial delay 10ms, `maxRetries` 3,
multiplier 2.0, jitter 0 (other fields at their defaults). -/
def cfg3 : RetryConfig := ⟨10000000, 30000000000, 3, 2, 300000000000, 0⟩

/-- The C3 operation: fails on invocations 1 and 2, succeeds on 3. -/
def fn3 : ℕ → Option GoErr :=
  fun k => if k < 2 then some (.base "unavailable") else none

/-- C3: with initial delay 10ms, `maxRetries = 3`, multiplier 2.0 and no
jitter, an operation failing twice then succeeding is invoked exactly 3
times; the run sleeps 10ms before attempt 2 and 20ms before attempt 3
(the first attempt is not preceded by a sleep), and returns success.
Holds for every observed elapsed-time sequence below the 5min default
cap and every random sequence (jitter is disabled). -/
theorem retry_scenario_delays (elapsedF : ℕ → ℤ) (randF : ℕ → ℚ)
    (h0 : elapsedF 0 < 300000000000) (h1 : elapsedF 1 < 300000000000) :
    RetryRun cfg3 fn3 elapsedF randF 3 = some (.ok, [10000000, 20000000]) ∧
    invocations (.ok, [10000000, 20000000]) = 3 := by
  have h0' : ¬((300000000000 : ℤ) ≤ elapsedF 0) := by omega
  have h1' : ¬((300000000000 : ℤ) ≤ elapsedF 1) := by omega
  refine ⟨?_, rfl⟩
  norm_num [RetryRun, retryAux, cfg3, fn3, asPermanent, nextIntervalCore,
    goTrunc, h0', h1']

/-- Witness for C3: the scenario at a concrete elapsed-time sequence. -/
theorem retry_scenario_delays_witness :
    RetryRun cfg3 fn3 (fun k => 30000000 * k) (fun _ => 0) 3 =
      some (.ok, [10000000, 20000000]) ∧
    invocations (.ok, [10000000, 20000000]) = 3 :=
  retry_scenario_delays (fun k => 30000000 * k) (fun _ => 0)
    (by norm_num) (by norm_num)

/-- The cancellation error `ctx.Err()` returned by a cancelled context
(`context.Canceled`): a plain error, not a permanent-error wrapper. -/
def contextCanceled : GoErr := .base "context canceled"

/-- The wrapper installed by `RetryWithContext` (helpers.go): before
each invocation it checks the cancellation signal; if the context is
done it returns `ctx.Err()` without invoking the inner operation,
otherwise it invokes the operation. -/
def ctxWrap (doneAt : ℕ → Bool) (ce : GoErr) (fn : ℕ → Option GoErr) :
    ℕ → Option GoErr :=
  fun k => if doneAt k then some ce else fn k

/-- Helper: when every invocation yields the same non-permanent error,
any completed run ends with exactly that error. -/
theorem retryAux_const_err_result (cfg : RetryConfig) (elapsedF : ℕ → ℤ)
    (randF : ℕ → ℚ) (e : GoErr) (hperm : asPermanent e = none) :
    ∀ (fuel k : ℕ) (cur : ℤ) (r : RetryResult) (s : List ℤ),
      retryAux cfg (fun _ => some e) elapsedF randF fuel k cur = some (r, s) →
      r = .fail e := by
  intro fuel
  induction fuel with
  | zero => intro k cur r s h; simp [retryAux] at h
  | succ n ih =>
    intro k cur r s h
    simp only [retryAux, hperm] at h
    split at h
    · injection h with h1
      injection h1 with hr hs
      exact hr.symm
    · split at h
      · injection h with h1
        injection h1 with hr hs
        exact hr.symm
      · cases hrec : retryAux cfg (fun _ => some e) elapsedF randF n (k + 1)
            (nextIntervalCore cur cfg (randF k)) with
        | none => rw [hrec] at h; simp at h
        | some p =>
          obtain ⟨p1, p2⟩ := p
          rw [hrec] at h
          simp only [Option.some.injEq, Prod.mk.injEq] at h
          rw [← h.1]
          exact ih (k + 1) (nextIntervalCore cur cfg (randF k)) p1 p2 hrec

/-- Helper: when every invocation yields the same non-permanent error
and `maxRetries` is positive, the loop completes within
`maxRetries - k` further iterations, returning that error. -/
theorem retryAux_const_err_stops (cfg : RetryConfig) (elapsedF : ℕ → ℤ)
    (randF : ℕ → ℚ) (e : GoErr) (hperm : asPermanent e = none)
    (hpos : 0 < cfg.maxRetries) :
    ∀ (fuel k : ℕ) (cur : ℤ), (k : ℤ) < cfg.maxRetries →
      cfg.maxRetries ≤ (k : ℤ) + fuel →
      ∃ s, retryAux cfg (fun _ => some e) elapsedF randF fuel k cur =
        some (.fail e, s) := by
  intro fuel
  induction fuel with
  | zero => intro k cur hk hle; exfalso; push_cast at hle; omega
  | succ n ih =>
    intro k cur hk hle
    by_cases hstop : cfg.maxRetries ≤ (k : ℤ) + 1
    · refine ⟨[], ?_⟩
      simp only [retryAux, hperm]
      rw [if_pos ⟨hpos, hstop⟩]
    · by_cases helap : 0 < cfg.maxElapsedTime ∧ cfg.maxElapsedTime ≤ elapsedF k
      · refine ⟨[], ?_⟩
        simp only [retryAux, hperm]
        rw [if_neg (fun hc => hstop hc.2), if_pos helap]
      · obtain ⟨s, hs⟩ := ih (k + 1) (nextIntervalCore cur cfg (randF k))
          (by push_cast; omega) (by push_cast at hle ⊢; omega)
        refine ⟨cur :: s, ?_⟩
        simp only [retryAux, hperm]
        rw [if_neg (fun hc => hstop hc.2), if_neg helap, hs]

/-- C4: if the context is already cancelled before any attempt starts,
`RetryWithContext` never invokes the caller's operation — the run is
independent of it — every completed run's result is the cancellation
error, and under the default policy the run does complete (within the
10-attempt budget) with the cancellation error. -/
theorem retry_ctx_cancelled (doneAt : ℕ → Bool) (hdone : ∀ k, doneAt k = true)
    (fn fn' : ℕ → Option GoErr) (elapsedF : ℕ → ℤ) (randF : ℕ → ℚ) :
    (∀ cfg fuel, RetryRun cfg (ctxWrap doneAt contextCanceled fn) elapsedF randF fuel =
        RetryRun cfg (ctxWrap doneAt contextCanceled fn') elapsedF randF fuel) ∧
    (∀ cfg fuel r s,
        RetryRun cfg (ctxWrap doneAt contextCanceled fn) elapsedF randF fuel =
          some (r, s) → r = .fail contextCanceled) ∧
    (∀ fuel, 10 ≤ fuel → ∃ s,
        RetryRun defaultConfig (ctxWrap doneAt contextCanceled fn) elapsedF randF fuel =
          some (.fail contextCanceled, s)) := by
  have hwrap : ∀ g : ℕ → Option GoErr,
      ctxWrap doneAt contextCanceled g = fun _ => some contextCanceled := by
    intro g
    funext k
    simp [ctxWrap, hdone k]
  refine ⟨?_, ?_, ?_⟩
  · intro cfg fuel
    rw [hwrap fn, hwrap fn']
  · intro cfg fuel r s h
    rw [hwrap fn] at h
    exact retryAux_const_err_result cfg elapsedF randF contextCanceled rfl
      fuel 0 cfg.initialInterval r s h
  · intro fuel hfuel
    rw [hwrap fn]
    exact retryAux_const_err_stops defaultConfig elapsedF randF contextCanceled
      rfl (by decide) fuel 0 defaultConfig.initialInterval (by decide)
      (by norm_num [defaultConfig]; omega)

/-- Witness for C4: with an always-done signal, a concrete
`RetryWithContext` run under the default policy returns the
cancellation error. -/
theorem retry_ctx_cancelled_witness :
    ∃ s, RetryRun defaultConfig
        (ctxWrap (fun _ => true) contextCanceled (fun _ => none))
        (fun _ => 0) (fun _ => 0) 10 = some (.fail contextCanceled, s) :=
  (retry_ctx_cancelled (fun _ => true) (fun _ => rfl) (fun _ => none)
    (fun _ => some (.base "never called")) (fun _ => 0) (fun _ => 0)).2.2
    10 (le_refl 10)

/-- The pre-jitter grown value of the backoff engine:
`min(time.Duration(float64(currentInterval)*config.Multiplier), config.MaxInterval)`. -/
def preJitterGrown (cur : ℤ) (cfg : RetryConfig) : ℤ :=
  min (goTrunc ((cur : ℚ) * cfg.multiplier)) cfg.maxInterval

/-- C6 counterexample: policy with `multiplier = 1`, `maxInterval =
1000`, `jitterFactor = 1/2 ∈ (0,1]`, current interval 5ns, random draw
0 ∈ [0,1).  The pre-jitter grown value is 5 (nonnegative, so clamping
at 0 changes nothing), the claimed lower bound is `5·(1-1/2) = 5/2`,
but the computed delay is the truncation `⌊5/2⌋ = 2 < 5/2`: the
computed delay falls strictly below `grown·(1-f)`. -/
theorem jitter_range_counterexample :
    preJitterGrown 5 ⟨5, 1000, 10, 1, 300000000000, 1/2⟩ = 5 ∧
    nextIntervalCore 5 ⟨5, 1000, 10, 1, 300000000000, 1/2⟩ 0 = 2 ∧
    ((nextIntervalCore 5 ⟨5, 1000, 10, 1, 300000000000, 1/2⟩ 0 : ℚ) <
      (5 : ℚ) * (1 - 1/2)) := by
  refine ⟨?_, ?_, ?_⟩
  · norm_num [preJitterGrown, goTrunc]
  · norm_num [nextIntervalCore, goTrunc]
  · norm_num [nextIntervalCore, goTrunc]

/-- C6 amended: for `jitterFactor = f ∈ (0,1]` and a random draw in
`[0,1)`, whenever the pre-jitter grown value `g` is nonnegative the
computed delay lies in the interval `(g·(1-f) - 1ns, g·(1+f)]` — the
claimed bounds hold up to the 1ns loss of the `time.Duration`
truncation of the jittered float. -/
theorem jitter_range_amended (cfg : RetryConfig) (cur : ℤ) (r : ℚ)
    (hf0 : 0 < cfg.randomizeFactor) (hf1 : cfg.randomizeFactor ≤ 1)
    (hr0 : 0 ≤ r) (hr1 : r < 1) (hg : 0 ≤ preJitterGrown cur cfg) :
    (preJitterGrown cur cfg : ℚ) * (1 - cfg.randomizeFactor) - 1 <
      (nextIntervalCore cur cfg r : ℚ) ∧
    (nextIntervalCore cur cfg r : ℚ) ≤
      (preJitterGrown cur cfg : ℚ) * (1 + cfg.randomizeFactor) := by
  have hgq : (0 : ℚ) ≤ (preJitterGrown cur cfg : ℚ) := by exact_mod_cast hg
  set f := cfg.randomizeFactor with hfdef
  set g : ℚ := (preJitterGrown cur cfg : ℚ) with hgdef
  have hval : nextIntervalCore cur cfg r =
      goTrunc ((g - f * g) + r * ((g + f * g) - (g - f * g))) := by
    rw [nextIntervalCore, if_pos hf0]
    rfl
  set v : ℚ := (g - f * g) + r * ((g + f * g) - (g - f * g)) with hvdef
  have hprod0 : 0 ≤ r * (f * g) := mul_nonneg hr0 (mul_nonneg hf0.le hgq)
  have hprod1 : (f * g) * r ≤ (f * g) * 1 :=
    mul_le_mul_of_nonneg_left hr1.le (mul_nonneg hf0.le hgq)
  have hprod2 : 0 ≤ (1 - f) * g := mul_nonneg (by linarith) hgq
  have hlo : g * (1 - f) ≤ v := by rw [hvdef]; nlinarith
  have hhi : v ≤ g * (1 + f) := by rw [hvdef]; nlinarith
  have hv0 : 0 ≤ v := by rw [hvdef]; nlinarith
  have htr : goTrunc v = ⌊v⌋ := by rw [goTrunc, if_pos hv0]
  rw [hval, htr]
  constructor
  · have hfl : v - 1 < (⌊v⌋ : ℚ) := Int.sub_one_lt_floor v
    linarith
  · have hfl : ((⌊v⌋ : ℤ) : ℚ) ≤ v := Int.floor_le v
    linarith

/-- Witness for the amended C6: the default policy at the default
initial interval with random draw 1/3. -/
theorem jitter_range_amended_witness :
    (preJitterGrown 500000000 defaultConfig : ℚ) * (1 - defaultConfig.randomizeFactor) - 1 <
      (nextIntervalCore 500000000 defaultConfig (1/3) : ℚ) ∧
    (nextIntervalCore 500000000 defaultConfig (1/3) : ℚ) ≤
      (preJitterGrown 500000000 defaultConfig : ℚ) * (1 + defaultConfig.randomizeFactor) :=
  jitter_range_amended defaultConfig 500000000 (1/3)
    (by norm_num [defaultConfig]) (by norm_num [defaultConfig])
    (by norm_num) (by norm_num)
    (by norm_num [preJitterGrown, goTrunc, defaultConfig])

/-- The evolution of `currentInterval` across the `Retry` loop:
`currentInterval` starts at `InitialInterval` and is replaced by the
computed next interval after each failed attempt. -/
def delaySeq (cfg : RetryConfig) (randF : ℕ → ℚ) : ℕ → ℤ
  | 0 => cfg.initialInterval
  | k + 1 => nextIntervalCore (delaySeq cfg randF k) cfg (randF k)

/-- The raw (pre-clamp) delay computed after attempt `k+1`:
`time.Duration(float64(currentInterval)*config.Multiplier)` before the
`min` against `MaxInterval`. -/
def rawDelay (cfg : RetryConfig) (randF : ℕ → ℚ) (k : ℕ) : ℤ :=
  goTrunc ((delaySeq cfg randF k : ℚ) * cfg.multiplier)

/-- C7 counterexample: policy with `initialInterval = 100 > maxInterval
= 10`, `multiplier = 2 ≥ 1`, `jitterFactor = 0`.  The first raw
(pre-clamp) delay is 200, the second is 20: successive raw delays
decrease, refuting the claim precisely in the advertised
"no constraint that initialDelay ≤ maxDelay" case. -/
theorem backoff_monotone_counterexample :
    rawDelay ⟨100, 10, 0, 2, 0, 0⟩ (fun _ => 0) 0 = 200 ∧
    rawDelay ⟨100, 10, 0, 2, 0, 0⟩ (fun _ => 0) 1 = 20 ∧
    ¬(rawDelay ⟨100, 10, 0, 2, 0, 0⟩ (fun _ => 0) 0 ≤
        rawDelay ⟨100, 10, 0, 2, 0, 0⟩ (fun _ => 0) 1) := by
  refine ⟨?_, ?_, ?_⟩ <;>
    norm_num [rawDelay, delaySeq, nextIntervalCore, goTrunc]

/-- Helper: for a nonnegative integer interval and multiplier ≥ 1, the
truncated product does not fall below the interval. -/
theorem goTrunc_mul_ge (x : ℤ) (m : ℚ) (hx : 0 ≤ x) (hm : 1 ≤ m) :
    x ≤ goTrunc ((x : ℚ) * m) := by
  have hq : (0 : ℚ) ≤ (x : ℚ) * m := by
    have : (0 : ℚ) ≤ (x : ℚ) := by exact_mod_cast hx
    nlinarith
  rw [goTrunc, if_pos hq]
  apply Int.le_floor.mpr
  have hxq : (0 : ℚ) ≤ (x : ℚ) := by exact_mod_cast hx
  nlinarith

/-- Helper: the truncated product is monotone in the interval for
nonnegative inputs and nonnegative multiplier. -/
theorem goTrunc_mul_mono (a b : ℤ) (m : ℚ) (ha : 0 ≤ a) (hab : a ≤ b)
    (hm : 0 ≤ m) : goTrunc ((a : ℚ) * m) ≤ goTrunc ((b : ℚ) * m) := by
  have haq : (0 : ℚ) ≤ (a : ℚ) * m := by
    have : (0 : ℚ) ≤ (a : ℚ) := by exact_mod_cast ha
    nlinarith
  have habq : (a : ℚ) * m ≤ (b : ℚ) * m := by
    have : (a : ℚ) ≤ (b : ℚ) := by exact_mod_cast hab
    nlinarith
  rw [goTrunc, goTrunc, if_pos haq, if_pos (le_trans haq habq)]
  exact Int.floor_le_floor habq

/-- Helper: with jitter disabled and `0 ≤ initial ≤ maxInterval` and
multiplier ≥ 1, the interval sequence stays in `[0, maxInterval]` and
is non-decreasing. -/
theorem delaySeq_invariant (cfg : RetryConfig) (randF : ℕ → ℚ)
    (hm : 1 ≤ cfg.multiplier) (hj : cfg.randomizeFactor = 0)
    (h0 : 0 ≤ cfg.initialInterval) (hle : cfg.initialInterval ≤ cfg.maxInterval) :
    ∀ k, 0 ≤ delaySeq cfg randF k ∧ delaySeq cfg randF k ≤ cfg.maxInterval ∧
      delaySeq cfg randF k ≤ delaySeq cfg randF (k + 1) := by
  have hstep : ∀ k, delaySeq cfg randF (k + 1) =
      min (goTrunc ((delaySeq cfg randF k : ℚ) * cfg.multiplier)) cfg.maxInterval := by
    intro k
    rw [delaySeq, nextIntervalCore, if_neg (by rw [hj]; exact lt_irrefl 0)]
  intro k
  induction k with
  | zero =>
    refine ⟨h0, hle, ?_⟩
    rw [hstep 0]
    exact le_min (goTrunc_mul_ge _ _ h0 hm) hle
  | succ n ih =>
    obtain ⟨hn0, hnle, hninc⟩ := ih
    have hs0 : 0 ≤ delaySeq cfg randF (n + 1) := le_trans hn0 hninc
    have hsle : delaySeq cfg randF (n + 1) ≤ cfg.maxInterval := by
      rw [hstep n]
      exact min_le_right _ _
    refine ⟨hs0, hsle, ?_⟩
    rw [hstep (n + 1)]
    exact le_min (goTrunc_mul_ge _ _ hs0 hm) hsle

/-- C7 amended: with `multiplier ≥ 1`, `jitterFactor = 0` and the added
constraint `0 ≤ initialDelay ≤ maxDelay` (which the counterexample
shows is necessary), successive raw pre-clamp delays are non-decreasing
and every computed delay is at most `maxDelay`; the computed-delay
bound holds for every policy with `jitterFactor = 0` even without the
constraint. -/
theorem backoff_monotone_amended (cfg : RetryConfig) (randF : ℕ → ℚ)
    (hm : 1 ≤ cfg.multiplier) (hj : cfg.randomizeFactor = 0)
    (h0 : 0 ≤ cfg.initialInterval) (hle : cfg.initialInterval ≤ cfg.maxInterval) :
    (∀ k, rawDelay cfg randF k ≤ rawDelay cfg randF (k + 1)) ∧
    (∀ (cfg' : RetryConfig) (randF' : ℕ → ℚ) (k : ℕ),
      cfg'.randomizeFactor = 0 →
      delaySeq cfg' randF' (k + 1) ≤ cfg'.maxInterval) := by
  constructor
  · intro k
    obtain ⟨hk0, -, hkinc⟩ := delaySeq_invariant cfg randF hm hj h0 hle k
    exact goTrunc_mul_mono _ _ _ hk0 hkinc (le_trans zero_le_one hm)
  · intro cfg' randF' k hj'
    rw [delaySeq, nextIntervalCore, if_neg (by rw [hj']; exact lt_irrefl 0)]
    exact min_le_right _ _

/-- Witness for the amended C7: a concrete policy with initial 100ns,
cap 1000ns, multiplier 2, no jitter. -/
theorem backoff_monotone_amended_witness :
    rawDelay ⟨100, 1000, 0, 2, 0, 0⟩ (fun _ => 0) 0 ≤
      rawDelay ⟨100, 1000, 0, 2, 0, 0⟩ (fun _ => 0) 1 ∧
    delaySeq ⟨100, 1000, 0, 2, 0, 0⟩ (fun _ => 0) 1 ≤ 1000 :=
  ⟨(backoff_monotone_amended ⟨100, 1000, 0, 2, 0, 0⟩ (fun _ => 0)
      (by norm_num) rfl (by norm_num) (by norm_num)).1 0,
   (backoff_monotone_amended ⟨100, 1000, 0, 2, 0, 0⟩ (fun _ => 0)
      (by norm_num) rfl (by norm_num) (by norm_num)).2
      ⟨100, 1000, 0, 2, 0, 0⟩ (fun _ => 0) 0 rfl⟩

/-- The policy override vocabulary: the `With...` options of retry.go
and the short options and presets of short.go (`Initial`, `Max`,
`MaxTime`, `Tries`, `Multiplier`, `Jitter`, `NoJitter`, `Forever`,
`Aggressive`, `Gentle`, `Linear`, `Exponential`, `HTTPStatus`,
`Database`, `API`, `Quick`, `Timeout`). -/
inductive Opt where
  | withInitialInterval (d : ℤ)
  | withMaxInterval (d : ℤ)
  | withMaxRetries (n : ℤ)
  | withMultiplier (f : ℚ)
  | withMaxElapsedTime (d : ℤ)
  | withRandomizeFactor (f : ℚ)
  | initial (d : ℤ)
  | maxIv (d : ℤ)
  | maxTime (d : ℤ)
  | tries (n : ℤ)
  | mult (f : ℚ)
  | jitter (f : ℚ)
  | noJitter
  | forever
  | aggressive
  | gentle
  | linear
  | expo (f : ℚ)
  | httpStatus
  | database
  | api
  | quick
  | timeout (d : ℤ)
deriving DecidableEq, Repr

/-- The effect of each option on a `RetryConfig`, field for field as in
retry.go and short.go (presets write their documented constants). -/
def applyOpt : Opt → RetryConfig → RetryConfig
  | .withInitialInterval d, c => { c with initialInterval := d }
  | .withMaxInterval d, c => { c with maxInterval := d }
  | .withMaxRetries n, c => { c with maxRetries := n }
  | .withMultiplier f, c => { c with multiplier := f }
  | .withMaxElapsedTime d, c => { c with maxElapsedTime := d }
  | .withRandomizeFactor f, c => { c with randomizeFactor := f }
  | .initial d, c => { c with initialInterval := d }
  | .maxIv d, c => { c with maxInterval := d }
  | .maxTime d, c => { c with maxElapsedTime := d }
  | .tries n, c => { c with maxRetries := n }
  | .mult f, c => { c with multiplier := f }
  | .jitter f, c => { c with randomizeFactor := f }
  | .noJitter, c => { c with randomizeFactor := 0 }
  | .forever, c => { c with maxRetries := 0 }
  | .aggressive, c =>
      { c with
        initialInterval := 100000000
        maxInterval := 5000000000
        maxRetries := 20
        multiplier := 3/2
        randomizeFactor := 1/10 }
  | .gentle, c =>
      { c with
        initialInterval := 2000000000
        maxInterval := 30000000000
        maxRetries := 5
        multiplier := 2
        randomizeFactor := 1/2 }
  | .linear, c => { c with multiplier := 1, randomizeFactor := 0 }
  | .expo f, c => { c with multiplier := f, randomizeFactor := 1/4 }
  | .httpStatus, c =>
      { c with
        initialInterval := 500000000
        maxInterval := 10000000000
        maxRetries := 5
        multiplier := 2
        randomizeFactor := 1/4 }
  | .database, c =>
      { c with
        initialInterval := 1000000000
        maxInterval := 30000000000
        maxRetries := 10
        multiplier := 2
        randomizeFactor := 1/2
        maxElapsedTime := 120000000000 }
  | .api, c =>
      { c with
        initialInterval := 200000000
        maxInterval := 5000000000
        maxRetries := 3
        multiplier := 2
        randomizeFactor := 3/10 }
  | .quick, c =>
      { c with
        initialInterval := 50000000
        maxInterval := 1000000000
        maxRetries := 3
        multiplier := 2
        randomizeFactor := 1/10 }
  | .timeout d, c => { c with maxElapsedTime := d, maxRetries := 0 }

/-- The value, if any, an option writes to `initialInterval`. -/
def setsInitial : Opt → Option ℤ
  | .withInitialInterval d => some d
  | .initial d => some d
  | .aggressive => some 100000000
  | .gentle => some 2000000000
  | .httpStatus => some 500000000
  | .database => some 1000000000
  | .api => some 200000000
  | .quick => some 50000000
  | _ => none

/-- The value, if any, an option writes to `maxInterval`. -/
def setsMaxInterval : Opt → Option ℤ
  | .withMaxInterval d => some d
  | .maxIv d => some d
  | .aggressive => some 5000000000
  | .gentle => some 30000000000
  | .httpStatus => some 10000000000
  | .database => some 30000000000
  | .api => some 5000000000
  | .quick => some 1000000000
  | _ => none

/-- The value, if any, an option writes to `maxRetries`. -/
def setsMaxRetries : Opt → Option ℤ
  | .withMaxRetries n => some n
  | .tries n => some n
  | .forever => some 0
  | .aggressive => some 20
  | .gentle => some 5
  | .httpStatus => some 5
  | .database => some 10
  | .api => some 3
  | .quick => some 3
  | .timeout _ => some 0
  | _ => none

/-- The value, if any, an option writes to `multiplier`. -/
def setsMultiplier : Opt → Option ℚ
  | .withMultiplier f => some f
  | .mult f => some f
  | .expo f => some f
  | .linear => some 1
  | .aggressive => some (3/2)
  | .gentle => some 2
  | .httpStatus => some 2
  | .database => some 2
  | .api => some 2
  | .quick => some 2
  | _ => none

/-- The value, if any, an option writes to `randomizeFactor`. -/
def setsRandomize : Opt → Option ℚ
  | .withRandomizeFactor f => some f
  | .jitter f => some f
  | .noJitter => some 0
  | .linear => some 0
  | .expo _ => some (1/4)
  | .aggressive => some (1/10)
  | .gentle => some (1/2)
  | .httpStatus => some (1/4)
  | .database => some (1/2)
  | .api => some (3/10)
  | .quick => some (1/10)
  | _ => none

/-- The value, if any, an option writes to `maxElapsedTime`. -/
def setsMaxElapsed : Opt → Option ℤ
  | .withMaxElapsedTime d => some d
  | .maxTime d => some d
  | .database => some 120000000000
  | .timeout d => some d
  | _ => none

/-- C8: every policy override option is idempotent, and for any two
options touching the same field — including a multi-field preset such
as `Database` followed by a later single-field override such as
`Tries` — the later option's value wins on that field, whatever was
applied before. -/
theorem options_idempotent_last_wins :
    (∀ (o : Opt) (c : RetryConfig), applyOpt o (applyOpt o c) = applyOpt o c) ∧
    (∀ (o1 o2 : Opt) (c : RetryConfig) (v : ℤ), setsInitial o2 = some v →
      (applyOpt o2 (applyOpt o1 c)).initialInterval = v) ∧
    (∀ (o1 o2 : Opt) (c : RetryConfig) (v : ℤ), setsMaxInterval o2 = some v →
      (applyOpt o2 (applyOpt o1 c)).maxInterval = v) ∧
    (∀ (o1 o2 : Opt) (c : RetryConfig) (v : ℤ), setsMaxRetries o2 = some v →
      (applyOpt o2 (applyOpt o1 c)).maxRetries = v) ∧
    (∀ (o1 o2 : Opt) (c : RetryConfig) (v : ℚ), setsMultiplier o2 = some v →
      (applyOpt o2 (applyOpt o1 c)).multiplier = v) ∧
    (∀ (o1 o2 : Opt) (c : RetryConfig) (v : ℚ), setsRandomize o2 = some v →
      (applyOpt o2 (applyOpt o1 c)).randomizeFactor = v) ∧
    (∀ (o1 o2 : Opt) (c : RetryConfig) (v : ℤ), setsMaxElapsed o2 = some v →
      (applyOpt o2 (applyOpt o1 c)).maxElapsedTime = v) := by
  refine ⟨?_, ?_, ?_, ?_, ?_, ?_, ?_⟩
  · intro o c
    cases o <;> rfl
  · intro o1 o2 c v h
    cases o2 <;> simp_all [setsInitial, applyOpt]
  · intro o1 o2 c v h
    cases o2 <;> simp_all [setsMaxInterval, applyOpt]
  · intro o1 o2 c v h
    cases o2 <;> simp_all [setsMaxRetries, applyOpt]
  · intro o1 o2 c v h
    cases o2 <;> simp_all [setsMultiplier, applyOpt]
  · intro o1 o2 c v h
    cases o2 <;> simp_all [setsRandomize, applyOpt]
  · intro o1 o2 c v h
    cases o2 <;> simp_all [setsMaxElapsed, applyOpt]

/-- Witness for C8: `Database` then `Tries(3)` leaves `maxRetries = 3`,
the value of the last-applied option. -/
theorem options_idempotent_last_wins_witness :
    (applyOpt (.tries 3) (applyOpt .database defaultConfig)).maxRetries = 3 :=
  options_idempotent_last_wins.2.2.2.1 .database (.tries 3) defaultConfig 3 rfl

/-- The `Retry` loop as driven by `RetryWithLogging` (helpers.go): the
wrapper increments its attempt counter once per invocation — so the
counter at the k-th invocation (0-based) is `k+1` — and appends a log
line `(attemptNumber, error)` whenever the invocation returns an
error, before handing the error to the loop.  Returns the terminal
result, the sleeps, and the log lines in order. -/
def retryLogAux (cfg : RetryConfig) (fn : ℕ → Option GoErr) (elapsedF : ℕ → ℤ)
    (randF : ℕ → ℚ) :
    ℕ → ℕ → ℤ → Option (RetryResult × List ℤ × List (ℕ × GoErr))
  | 0, _, _ => none
  | fuel + 1, k, cur =>
    match fn k with
    | none => some (.ok, [], [])
    | some e =>
      match asPermanent e with
      | some c => some (.fail c, [], [(k + 1, e)])
      | none =>
        if 0 < cfg.maxRetries ∧ cfg.maxRetries ≤ (k : ℤ) + 1 then
          some (.fail e, [], [(k + 1, e)])
        else if 0 < cfg.maxElapsedTime ∧ cfg.maxElapsedTime ≤ elapsedF k then
          some (.fail e, [], [(k + 1, e)])
        else
          match retryLogAux cfg fn elapsedF randF fuel (k + 1)
              (nextIntervalCore cur cfg (randF k)) with
          | none => none
          | some (r, sleeps, logs) => some (r, cur :: sleeps, (k + 1, e) :: logs)

/-- A whole `RetryWithLogging` run. -/
def RetryWithLoggingRun (cfg : RetryConfig) (fn : ℕ → Option GoErr)
    (elapsedF : ℕ → ℤ) (randF : ℕ → ℚ) (fuel : ℕ) :
    Option (RetryResult × List ℤ × List (ℕ × GoErr)) :=
  retryLogAux cfg fn elapsedF randF fuel 0 cfg.initialInterval

/-- C9 counterexample: with `maxRetries = 1` and an operation that
fails on its single attempt, the final attempt exhausts the budget yet
`RetryWithLogging` DOES log it: the run emits the log line
`(1, boom)`, where the claim predicts no log line for the attempt that
exhausts the budget. -/
theorem logging_final_attempt_counterexample :
    RetryWithLoggingRun ⟨500000000, 30000000000, 1, 2, 300000000000, 1/2⟩
        (fun _ => some (.base "boom")) (fun _ => 0) (fun _ => 0) 1 =
      some (.fail (.base "boom"), [], [(1, .base "boom")]) ∧
    [(1, GoErr.base "boom")] ≠ ([] : List (ℕ × GoErr)) :=
  ⟨rfl, by simp⟩

/-- C9 amended: `RetryWithLogging` logs `"Attempt N failed: <error>"`
for every failed invocation — including a final failed attempt that
exhausts the budget — and never logs a successful attempt: every log
line carries the number and error of an invocation that actually
failed; an attempt that fails while exhausting the attempt budget is
logged; and in the fail-fail-succeed scenario exactly the two lines
for attempts 1 and 2 are emitted, none for the successful attempt 3. -/
theorem logging_every_failed_attempt (cfg : RetryConfig) (fn : ℕ → Option GoErr)
    (elapsedF : ℕ → ℤ) (randF : ℕ → ℚ) :
    (∀ fuel k cur r s logs,
      retryLogAux cfg fn elapsedF randF fuel k cur = some (r, s, logs) →
      ∀ p ∈ logs, 1 ≤ p.1 ∧ fn (p.1 - 1) = some p.2) ∧
    (∀ fuel k cur e, fn k = some e → asPermanent e = none →
      0 < cfg.maxRetries → cfg.maxRetries ≤ (k : ℤ) + 1 →
      retryLogAux cfg fn elapsedF randF (fuel + 1) k cur =
        some (.fail e, [], [(k + 1, e)])) ∧
    (∀ (elapsedG : ℕ → ℤ) (randG : ℕ → ℚ),
      elapsedG 0 < 300000000000 → elapsedG 1 < 300000000000 →
      RetryWithLoggingRun cfg3 fn3 elapsedG randG 3 =
        some (.ok, [10000000, 20000000],
          [(1, .base "unavailable"), (2, .base "unavailable")])) := by
  refine ⟨?_, ?_, ?_⟩
  · intro fuel
    induction fuel with
    | zero => intro k cur r s logs h; simp [retryLogAux] at h
    | succ n ih =>
      intro k cur r s logs h
      cases hfn : fn k with
      | none =>
        simp only [retryLogAux, hfn] at h
        injection h with h1
        injection h1 with hr h2
        injection h2 with hs hl
        subst hl
        intro p hp
        simp at hp
      | some e =>
        simp only [retryLogAux, hfn] at h
        cases hperm : asPermanent e with
        | some c =>
          simp only [hperm] at h
          injection h with h1
          injection h1 with hr h2
          injection h2 with hs hl
          subst hl
          intro p hp
          simp at hp
          subst hp
          exact ⟨by omega, by simpa using hfn⟩
        | none =>
          simp only [hperm] at h
          split at h
          · injection h with h1
            injection h1 with hr h2
            injection h2 with hs hl
            subst hl
            intro p hp
            simp at hp
            subst hp
            exact ⟨by omega, by simpa using hfn⟩
          · split at h
            · injection h with h1
              injection h1 with hr h2
              injection h2 with hs hl
              subst hl
              intro p hp
              simp at hp
              subst hp
              exact ⟨by omega, by simpa using hfn⟩
            · cases hrec : retryLogAux cfg fn elapsedF randF n (k + 1)
                  (nextIntervalCore cur cfg (randF k)) with
              | none => rw [hrec] at h; simp at h
              | some q =>
                obtain ⟨q1, q2, q3⟩ := q
                rw [hrec] at h
                simp only [Option.some.injEq, Prod.mk.injEq] at h
                obtain ⟨-, -, hlogs⟩ := h
                rw [← hlogs]
                intro p hp
                rcases List.mem_cons.mp hp with hph | hpt
                · subst hph
                  exact ⟨by omega, by simpa using hfn⟩
                · exact ih (k + 1) (nextIntervalCore cur cfg (randF k))
                    q1 q2 q3 hrec p hpt
  · intro fuel k cur e hfn hperm hpos hstop
    simp only [retryLogAux, hfn, hperm]
    rw [if_pos ⟨hpos, hstop⟩]
  · intro elapsedG randG h0 h1
    have h0' : ¬((300000000000 : ℤ) ≤ elapsedG 0) := by omega
    have h1' : ¬((300000000000 : ℤ) ≤ elapsedG 1) := by omega
    norm_num [RetryWithLoggingRun, retryLogAux, cfg3, fn3, asPermanent,
      nextIntervalCore, goTrunc, h0', h1']

/-- Witness for the amended C9: the fail-fail-succeed scenario at a
concrete elapsed-time sequence emits exactly the lines for attempts 1
and 2. -/
theorem logging_every_failed_attempt_witness :
    RetryWithLoggingRun cfg3 fn3 (fun k => 30000000 * k) (fun _ => 0) 3 =
      some (.ok, [10000000, 20000000],
        [(1, .base "unavailable"), (2, .base "unavailable")]) :=
  (logging_every_failed_attempt defaultConfig (fun _ => none) (fun _ => 0)
    (fun _ => 0)).2.2 (fun k => 30000000 * k) (fun _ => 0)
    (by norm_num) (by norm_num)

/-- The `Attempt` struct of iterator.go (the `Context` field, carrying
only the cancellation signal, is irrelevant to the claims and
omitted). -/
structure Attempt where
  number : ℤ
  delay : ℤ
  elapsed : ℤ
  lastError : Option GoErr
deriving DecidableEq, Repr

/-- The generator loop of `Attempts` (iterator.go), fueled.  State:
`i` = 0-based round counter, `cur` = `currentInterval`, `el` = the
`elapsed` variable.  Each round first checks the two stop conditions
(`MaxRetries > 0 && i >= MaxRetries`, `MaxElapsedTime > 0 && elapsed >
MaxElapsedTime`), then builds the attempt (`Number = i+1`, `Delay`
forced to 0 on the first round, `Elapsed` read before the sleep,
`LastError` never set by the generator), sleeps and refreshes
`elapsed` when `i > 0` (`elapsedF i` = the refreshed
`time.Since(startTime)`), yields, and updates the interval: multiply
by `Multiplier` when positive, cap at `MaxInterval`, then apply the
jitter helper `getNextInterval` when `RandomizeFactor > 0` — that
helper's code is not among the sources, so it is abstracted as the
parameter `jf`; every claim below holds for all `jf`.  Fuel doubles as
the caller's early termination: the list holds the attempts yielded
before the caller stops pulling. -/
def attemptsAux (cfg : RetryConfig) (elapsedF : ℕ → ℤ) (jf : ℕ → ℤ → ℤ) :
    ℕ → ℕ → ℤ → ℤ → List Attempt
  | 0, _, _, _ => []
  | fuel + 1, i, cur, el =>
    if 0 < cfg.maxRetries ∧ cfg.maxRetries ≤ (i : ℤ) then []
    else if 0 < cfg.maxElapsedTime ∧ cfg.maxElapsedTime < el then []
    else
      let a : Attempt := ⟨(i : ℤ) + 1, if i = 0 then 0 else cur, el, none⟩
      let el2 := if 0 < i then elapsedF i else el
      let cur1 := if 0 < cfg.multiplier then goTrunc ((cur : ℚ) * cfg.multiplier)
        else cur
      let cur2 := if cfg.maxInterval < cur1 then cfg.maxInterval else cur1
      let cur3 := if 0 < cfg.randomizeFactor then jf i cur2 else cur2
      a :: attemptsAux cfg elapsedF jf fuel (i + 1) cur3 el2

/-- A whole `Attempts` sequence: round 0, `currentInterval =
config.InitialInterval`, `elapsed = 0`. -/
def AttemptsRun (cfg : RetryConfig) (elapsedF : ℕ → ℤ) (jf : ℕ → ℤ → ℤ)
    (fuel : ℕ) : List Attempt :=
  attemptsAux cfg elapsedF jf fuel 0 cfg.initialInterval 0

/-- The generic exhaustion error of `DoWithAttempts`
(`errors.New("all retry attempts failed")`). -/
def genericRetryError : GoErr := .base "all retry attempts failed"

/-- The driver loop of `DoWithAttempts` (iterator.go): fold the
caller's callback over the attempt sequence, carrying `lastErr`.  A
nil callback result returns success at once; a cause-chain permanent
error returns its unwrapped cause at once; otherwise the error is
recorded and the loop continues.  When the sequence is exhausted, the
recorded `lastErr` is returned if one exists, else the generic
exhaustion error. -/
def doLoop (fn : Attempt → Option GoErr) : List Attempt → Option GoErr → RetryResult
  | [], none => .fail genericRetryError
  | [], some e => .fail e
  | a :: rest, _ =>
    match fn a with
    | none => .ok
    | some e =>
      match asPermanent e with
      | some c => .fail c
      | none => doLoop fn rest (some e)

/-- A whole `DoWithAttempts` run: drive the callback over the
`Attempts` sequence with no error recorded yet. -/
def DoWithAttemptsRun (cfg : RetryConfig) (fn : Attempt → Option GoErr)
    (elapsedF : ℕ → ℤ) (jf : ℕ → ℤ → ℤ) (fuel : ℕ) : RetryResult :=
  doLoop fn (AttemptsRun cfg elapsedF jf fuel) none

/-- C5: when `DoWithAttempts` exhausts the attempt sequence without the
callback ever succeeding (every consumed attempt fails with a
non-permanent error), it returns the error recorded from the last
attempt; and on an empty attempt sequence — no attempt ever ran — it
returns the distinct generic exhaustion error, which is an error (not
nil) and not any prior operation error. -/
theorem doWithAttempts_last_error (fn : Attempt → Option GoErr) :
    (∀ (as : List Attempt) (acc : Option GoErr) (a : Attempt),
      (∀ x ∈ as, ∃ e, fn x = some e ∧ asPermanent e = none) →
      as.getLast? = some a →
      ∃ e, fn a = some e ∧ doLoop fn as acc = .fail e) ∧
    (∀ acc : Option GoErr, doLoop fn [] acc =
      (match acc with | none => .fail genericRetryError | some e => .fail e)) ∧
    doLoop fn [] none = .fail genericRetryError := by
  refine ⟨?_, ?_, rfl⟩
  · intro as
    induction as with
    | nil => intro acc2 a _ h; simp at h
    | cons b rest ih =>
      intro acc a hall hlast
      obtain ⟨e, hfe, hperm⟩ := hall b (List.mem_cons_self b rest)
      cases rest with
      | nil =>
        simp [List.getLast?] at hlast
        subst hlast
        exact ⟨e, hfe, by simp [doLoop, hfe, hperm]⟩
      | cons b2 t =>
        rw [List.getLast?_cons_cons] at hlast
        obtain ⟨e2, hfe2, h2⟩ := ih (some e) a
          (fun x hx => hall x (List.mem_cons_of_mem _ hx)) hlast
        exact ⟨e2, hfe2, by simp only [doLoop, hfe, hperm]; exact h2⟩
  · intro acc
    cases acc <;> rfl

/-- Witness for C5: a single always-failing attempt; the driver
returns that attempt's error. -/
theorem doWithAttempts_last_error_witness :
    ∃ e, (fun _ : Attempt => some (GoErr.base "boom")) ⟨1, 0, 0, none⟩ = some e ∧
      doLoop (fun _ => some (.base "boom")) [⟨1, 0, 0, none⟩] none = .fail e :=
  (doWithAttempts_last_error (fun _ => some (.base "boom"))).1
    [⟨1, 0, 0, none⟩] none ⟨1, 0, 0, none⟩
    (fun _ _ => ⟨.base "boom", rfl, rfl⟩) rfl

/-- C10: for every configuration (any attempt cap, any elapsed cap)
and every fuel ≥ 1, the `Attempts` sequence yields a first attempt
with `Number = 1`, `Delay = 0`, `Elapsed = 0` and nil `LastError`: no
configuration produces an empty sequence. -/
theorem attempts_first_yield (cfg : RetryConfig) (elapsedF : ℕ → ℤ)
    (jf : ℕ → ℤ → ℤ) (fuel : ℕ) (h : 1 ≤ fuel) :
    (AttemptsRun cfg elapsedF jf fuel).head? =
      some ({ number := 1, delay := 0, elapsed := 0, lastError := none } : Attempt) ∧
    AttemptsRun cfg elapsedF jf fuel ≠ [] := by
  cases fuel with
  | zero => exact absurd h (by norm_num)
  | succ n =>
    rw [AttemptsRun, attemptsAux]
    rw [if_neg (by omega), if_neg (by omega)]
    constructor
    · simp
    · simp

/-- Witness for C10: a configuration demanding zero attempts
(`maxRetries` negative is impossible in Go only through casts, but 0
and negative caps are accepted) still yields the first attempt. -/
theorem attempts_first_yield_witness :
    (AttemptsRun ⟨500000000, 30000000000, 0, 2, 300000000000, 1/2⟩
        (fun _ => 0) (fun _ d => d) 1).head? =
      some ({ number := 1, delay := 0, elapsed := 0, lastError := none } : Attempt) ∧
    AttemptsRun ⟨500000000, 30000000000, 0, 2, 300000000000, 1/2⟩
        (fun _ => 0) (fun _ d => d) 1 ≠ [] :=
  attempts_first_yield ⟨500000000, 30000000000, 0, 2, 300000000000, 1/2⟩
    (fun _ => 0) (fun _ d => d) 1 (le_refl 1)

end Ebo
